import Mathlib

/-!
Verification of the fetch-coordination core of `src/sentry/static/sentry/app/views/eventsV2/tags.tsx`
(the `Tags` React component): round tokens, stale-result suppression, state reset,
refetch decision, merge commutativity, failure handling and the read view.

The embedding is shallow: the component's mutable `State` becomes a Lean structure
(the JS object map `tags` becomes a function `String → Option Tag`, since a JS
object is semantically a key-to-value map), `Symbol('tagsFetchID')` minting becomes
a monotone counter `nextID` (symbols are unique per evaluation for the lifetime of
the page), `setState` continuations become pure state transformers, and the
fire-and-forget dispatches of `fetchData` become an explicit ordered list of steps.
`Sentry.captureException` becomes appending to a fault log.
-/

/-- Modelled from the spec: `TagTopValue` is declared in `./utils`, which is not under
`src/`. A top value carries its string value, a count, and a `url` field that
`renderTag` writes (`segment.url = getEventTagSearchUrl(...)`). -/
structure TagTopValue where
  value : String
  count : Nat
  url : Option String
deriving DecidableEq, Repr

/-- Modelled from the spec: `Tag` (a FacetResult) is declared in `./utils`, which is
not under `src/`. It is the top-K value/count pairs for one facet; `tags.tsx` uses
its `topValues` list. -/
structure Tag where
  topValues : List TagTopValue
deriving DecidableEq, Repr

/-- Modelled from the spec: `pickTagParams` and `getEventsAPIPayload` are declared
outside `src/`. The spec describes the result as the fetch-relevant parameter
subset of the query context (filter expression, time range, environment),
excluding display-only fields. Comparison is deep value equality. -/
structure TagParams where
  query : String
  timeStart : Option String
  timeEnd : Option String
  statsPeriod : Option String
  environment : List String
deriving DecidableEq, Repr

/-- The component `State` of `tags.tsx`: `tags: {[key: string]: Tag}` (a map from
facet name to its result), `totalValues: null | number`, and
`tagsFetchID: symbol | undefined` (the current round token, modelled as `Option Nat`). -/
@[ext]
structure State where
  tags : String → Option Tag
  totalValues : Option Int
  tagsFetchID : Option Nat

/-- The component together with its ambient effects: the React state `st`, the
source of fresh `Symbol` identities `nextID` (each `Symbol('tagsFetchID')`
evaluation yields a new identity, modelled as taking the counter and bumping it),
and the log of faults reported through `Sentry.captureException`. -/
@[ext]
structure Sys where
  st : State
  nextID : Nat
  faults : List String

/-- The props that `Tags` reads when deciding whether to refetch:
`eventView.tags` (the facet list) and the fetch-relevant parameter projection
`pickTagParams(eventView.getEventsAPIPayload(location))`. -/
structure Props where
  tags : List String
  tagParams : TagParams
deriving DecidableEq

/-- One asynchronous fetch dispatched by `fetchData`, tagged with the round token
it closes over, the kind (one facet distribution, or the total count), and the
query payload it carries. -/
inductive FetchKind where
  | facet (tag : String)
  | total
deriving DecidableEq, Repr

structure Dispatch where
  fid : Nat
  kind : FetchKind
  payload : TagParams
deriving DecidableEq, Repr

/-- The ordered synchronous actions `fetchData` performs before any fetch
resolves: the `setState` reset, then the dispatch of each fetch. The list order
mirrors the statement order of the source. -/
inductive Step where
  | reset (fid : Nat)
  | dispatch (d : Dispatch)
deriving DecidableEq, Repr

/-- Embeds the facet-success `setState` continuation in `fetchData`:
if `state.tagsFetchID !== tagsFetchID` the state is returned unchanged, otherwise
the facet's map entry is set to the received value (`tags: {...state.tags, [tag]: val}`). -/
def mergeTag (tagsFetchID : Nat) (tag : String) (val : Tag) (s : State) : State :=
  if s.tagsFetchID ≠ some tagsFetchID then
    s
  else
    { s with tags := fun t => if t = tag then some val else s.tags t }

/-- Embeds the total-success `setState` continuation in `fetchData`:
if `state.tagsFetchID !== tagsFetchID` the state is returned unchanged, otherwise
`totalValues` is set to the received count. -/
def mergeTotal (tagsFetchID : Nat) (v : Int) (s : State) : State :=
  if s.tagsFetchID ≠ some tagsFetchID then
    s
  else
    { s with totalValues := some v }

/-- The resolution continuation of one facet fetch (the body of the
`forEach` callback after `await`): on success run the `setState` merge gated by
the round token; on failure call `Sentry.captureException` (append to the fault
log) and touch nothing else. The second component is the list of fetches the
continuation itself dispatches — always empty: no retry. -/
def facetContinuation (tagsFetchID : Nat) (tag : String) (outcome : Except String Tag)
    (sys : Sys) : Sys × List Dispatch :=
  match outcome with
  | Except.ok val => ({ sys with st := mergeTag tagsFetchID tag val sys.st }, [])
  | Except.error err => ({ sys with faults := sys.faults ++ [err] }, [])

/-- The resolution continuation of the total fetch (the trailing
`try { await fetchTotalCount ... } catch` block): success merges gated by the
round token; failure reports to `Sentry.captureException` only. No retry. -/
def totalContinuation (tagsFetchID : Nat) (outcome : Except String Int)
    (sys : Sys) : Sys × List Dispatch :=
  match outcome with
  | Except.ok v => ({ sys with st := mergeTotal tagsFetchID v sys.st }, [])
  | Except.error err => ({ sys with faults := sys.faults ++ [err] }, [])

/-- The synchronous prefix of `Tags.fetchData`: mint a fresh `Symbol` (take
`nextID` and bump the counter), `setState({tags: {}, totalValues: null, tagsFetchID})`,
then dispatch one fetch per facet in `eventView.tags` followed by the total fetch,
each carrying the minted token and the picked query payload. `steps` records these
actions in source statement order: the reset strictly precedes every dispatch. -/
structure RoundStart where
  sys : Sys
  steps : List Step

def fetchData (facets : List String) (queryPayload : TagParams) (sys : Sys) : RoundStart :=
  let tagsFetchID := sys.nextID
  { sys :=
      { sys with
        st := { tags := fun _ => none, totalValues := none, tagsFetchID := some tagsFetchID }
        nextID := sys.nextID + 1 }
    steps :=
      Step.reset tagsFetchID ::
        (facets.map (fun tag =>
          Step.dispatch { fid := tagsFetchID, kind := FetchKind.facet tag, payload := queryPayload }) ++
          [Step.dispatch { fid := tagsFetchID, kind := FetchKind.total, payload := queryPayload }]) }

/-- Embeds `isEqual(new Set(next), new Set(prev))` from `componentDidUpdate`:
lodash compares two Sets by size and then membership of every element. -/
def setIsEqual (a b : List String) : Bool :=
  (a.toFinset.card == b.toFinset.card) && a.all (fun x => b.contains x)

/-- Embeds `Tags.shouldRefetchData`: deep equality (`isEqual`) of the two
`pickTagParams` projections, negated. -/
def shouldRefetchData (props prevProps : Props) : Bool :=
  !(props.tagParams == prevProps.tagParams)

/-- The condition of `componentDidUpdate`:
`tagsChanged || this.shouldRefetchData(prevProps)` where
`tagsChanged = !isEqual(new Set(this.props.eventView.tags), new Set(prevProps.eventView.tags))`. -/
def refetchDecision (props prevProps : Props) : Bool :=
  !(setIsEqual props.tags prevProps.tags) || shouldRefetchData props prevProps

/-- Embeds `Tags.componentDidUpdate`: if the facet set changed or the projected
payload changed, call `fetchData`; otherwise do nothing (no state change, no steps). -/
def componentDidUpdate (props prevProps : Props) (sys : Sys) : Sys × List Step :=
  if refetchDecision props prevProps then
    let r := fetchData props.tags props.tagParams sys
    (r.sys, r.steps)
  else
    (sys, [])

/-- The data `renderTag` passes to `TagDistributionMeter` for one facet. -/
structure TagRender where
  title : String
  segments : List TagTopValue
  totalValues : Option Int
  isLoading : Bool
deriving DecidableEq, Repr

/-- Embeds `Tags.renderTag`. `isLoading = !tags[tag] || totalValues === null`
(a present `Tag` object is always truthy, so falsiness is absence). When not
loading, `segments` aliases the stored `tags[tag].topValues` array and the
`forEach` writes `segment.url = getEventTagSearchUrl(tag, segment.value, location)`
in place on each element — an in-place mutation of the stored state, which the
functional embedding returns as the post-state. `urlFn tag value` stands for
`getEventTagSearchUrl(tag, value, location)` (declared outside `src/`), with the
ambient `location` folded in. -/
def renderTag (urlFn : String → String → String) (tag : String) (s : State) :
    TagRender × State :=
  match s.tags tag, s.totalValues with
  | some tg, some tot =>
    let segments := tg.topValues.map (fun seg => { seg with url := some (urlFn tag seg.value) })
    let updated : Tag := { tg with topValues := segments }
    ({ title := tag, segments := segments, totalValues := some tot, isLoading := false },
      { s with tags := fun t => if t = tag then some updated else s.tags t })
  | _, _ =>
    ({ title := tag, segments := [], totalValues := s.totalValues, isLoading := true }, s)

/-- A successful fetch resolution of the current round, for stating that merges
commute: one facet result or the total. -/
inductive FetchResult where
  | facet (tag : String) (val : Tag)
  | total (v : Int)
deriving DecidableEq, Repr

/-- The map key a result writes: `some tag` for a facet result, `none`
(the `totalValues` slot) for the total. Distinct keys mean disjoint writes. -/
def FetchResult.key : FetchResult → Option String
  | FetchResult.facet tag _ => some tag
  | FetchResult.total _ => none

/-- Applies one successful resolution of round `tagsFetchID` to the state. -/
def applyResult (tagsFetchID : Nat) (s : State) : FetchResult → State
  | FetchResult.facet tag val => mergeTag tagsFetchID tag val s
  | FetchResult.total v => mergeTotal tagsFetchID v s

/-- One event in the lifetime of the component: a round start (mount or a
refetching update), the resolution of a facet or total fetch, or a render. -/
inductive Op where
  | round (facets : List String) (payload : TagParams)
  | facetResolve (fid : Nat) (tag : String) (outcome : Except String Tag)
  | totalResolve (fid : Nat) (outcome : Except String Int)
  | render (urlFn : String → String → String) (tag : String)

def applyOp (sys : Sys) : Op → Sys
  | Op.round facets payload => (fetchData facets payload sys).sys
  | Op.facetResolve fid tag outcome => (facetContinuation fid tag outcome sys).1
  | Op.totalResolve fid outcome => (totalContinuation fid outcome sys).1
  | Op.render urlFn tag => { sys with st := (renderTag urlFn tag sys.st).2 }

def runOps : Sys → List Op → Sys
  | sys, [] => sys
  | sys, op :: ops => runOps (applyOp sys op) ops

/-- The round tokens minted along a lifetime, in order: each `Op.round` mints
the then-current `nextID`. -/
def mintedTokens : Sys → List Op → List Nat
  | _, [] => []
  | sys, op :: ops =>
    match op with
    | Op.round _ _ => sys.nextID :: mintedTokens (applyOp sys op) ops
    | _ => mintedTokens (applyOp sys op) ops

/-- The last element of `l`, or `d` when `l` is empty: the token that is current
after a lifetime is the last minted one, or the initial one if no round started. -/
def lastMinted (l : List Nat) (d : Option Nat) : Option Nat :=
  match l with
  | [] => d
  | x :: xs => lastMinted xs (some x)

/-! Concrete values shared by witnesses and counterexamples. -/

def paramsW : TagParams :=
  { query := "event.type:error", timeStart := none, timeEnd := none
    statsPeriod := some "14d", environment := [] }

def tagW : Tag :=
  { topValues := [{ value := "chrome", count := 10, url := none }] }

/-- A fresh component: empty facet map, no total, no round started yet. -/
def sysW0 : Sys :=
  { st := { tags := fun _ => none, totalValues := none, tagsFetchID := none }
    nextID := 0, faults := [] }

/-- A component whose current round token is `0` and whose next mint is `1`. -/
def sysW : Sys :=
  { st := { tags := fun _ => none, totalValues := none, tagsFetchID := some 0 }
    nextID := 1, faults := [] }

/-! Helper lemmas. -/

theorem mergeTag_stale {fid : Nat} {tag : String} {val : Tag} {s : State}
    (h : s.tagsFetchID ≠ some fid) : mergeTag fid tag val s = s := by
  simp [mergeTag, h]

theorem mergeTotal_stale {fid : Nat} {v : Int} {s : State}
    (h : s.tagsFetchID ≠ some fid) : mergeTotal fid v s = s := by
  simp [mergeTotal, h]

/-- Claim C1: a fetch resolution (facet or total) whose carried round token is not
the current `tagsFetchID` leaves the state completely unchanged — the stale
result is never merged. -/
theorem staleResultNeverMerged (fid : Nat) (tag : String) (val : Tag) (v : Int) (sys : Sys)
    (h : sys.st.tagsFetchID ≠ some fid) :
    (facetContinuation fid tag (Except.ok val) sys).1 = sys ∧
    (totalContinuation fid (Except.ok v) sys).1 = sys := by
  constructor
  · show { sys with st := mergeTag fid tag val sys.st } = sys
    rw [mergeTag_stale h]
  · show { sys with st := mergeTotal fid v sys.st } = sys
    rw [mergeTotal_stale h]

theorem staleResultNeverMerged_witness :
    (facetContinuation 1 "browser" (Except.ok tagW) sysW).1 = sysW ∧
    (totalContinuation 1 (Except.ok 5) sysW).1 = sysW :=
  staleResultNeverMerged 1 "browser" tagW 5 sysW (by simp [sysW])

/-- Claim C2: every invocation of `fetchData`, from any state, clears the facet
map, sets the total to absent, installs the newly minted token as current, and
performs this reset strictly before any fetch of the new round is dispatched
(the step list starts with the reset and everything after it is a dispatch
carrying the minted token). -/
theorem roundStartResets (facets : List String) (p : TagParams) (sys : Sys) :
    ((fetchData facets p sys).sys.st.tags = fun _ => none) ∧
    (fetchData facets p sys).sys.st.totalValues = none ∧
    (fetchData facets p sys).sys.st.tagsFetchID = some sys.nextID ∧
    ∃ tail, (fetchData facets p sys).steps = Step.reset sys.nextID :: tail ∧
      ∀ s ∈ tail, ∃ d, s = Step.dispatch d ∧ d.fid = sys.nextID := by
  refine ⟨rfl, rfl, rfl, _, rfl, ?_⟩
  intro s hs
  rcases List.mem_append.1 hs with hmap | hone
  · rcases List.mem_map.1 hmap with ⟨tag, _, rfl⟩
    exact ⟨_, rfl, rfl⟩
  · rcases List.mem_singleton.1 hone with rfl
    exact ⟨_, rfl, rfl⟩

theorem roundStartResets_witness :
    ((fetchData ["browser", "os"] paramsW sysW0).sys.st.tags = fun _ => none) ∧
    (fetchData ["browser", "os"] paramsW sysW0).sys.st.totalValues = none ∧
    (fetchData ["browser", "os"] paramsW sysW0).sys.st.tagsFetchID = some sysW0.nextID ∧
    ∃ tail, (fetchData ["browser", "os"] paramsW sysW0).steps =
        Step.reset sysW0.nextID :: tail ∧
      ∀ s ∈ tail, ∃ d, s = Step.dispatch d ∧ d.fid = sysW0.nextID :=
  roundStartResets ["browser", "os"] paramsW sysW0

/-- Claim C7: a transport failure of an individual fetch (facet or total) appends
the fault to the report log, leaves the component state untouched, and dispatches
no retry; the continuation returns normally (its type is total), so the failure
is never surfaced as an exception to the caller that triggered the round. -/
theorem transportFailureHandled (fid : Nat) (tag : String) (e f : String) (sys : Sys) :
    (facetContinuation fid tag (Except.error e) sys).1.st = sys.st ∧
    (facetContinuation fid tag (Except.error e) sys).1.faults = sys.faults ++ [e] ∧
    (facetContinuation fid tag (Except.error e) sys).2 = [] ∧
    (totalContinuation fid (Except.error f) sys).1.st = sys.st ∧
    (totalContinuation fid (Except.error f) sys).1.faults = sys.faults ++ [f] ∧
    (totalContinuation fid (Except.error f) sys).2 = [] :=
  ⟨rfl, rfl, rfl, rfl, rfl, rfl⟩

/-- Claim C10: the failure continuation reports the fault unconditionally — even
when the carried round token is no longer current — while a stale successful
result is discarded silently, with no report and no state change. -/
theorem staleFailureStillReported (fid : Nat) (tag : String) (e : String) (val : Tag)
    (v : Int) (sys : Sys) (h : sys.st.tagsFetchID ≠ some fid) :
    (facetContinuation fid tag (Except.error e) sys).1.faults = sys.faults ++ [e] ∧
    (totalContinuation fid (Except.error e) sys).1.faults = sys.faults ++ [e] ∧
    (facetContinuation fid tag (Except.ok val) sys).1 = sys ∧
    (facetContinuation fid tag (Except.ok val) sys).1.faults = sys.faults ∧
    (totalContinuation fid (Except.ok v) sys).1 = sys ∧
    (totalContinuation fid (Except.ok v) sys).1.faults = sys.faults := by
  refine ⟨rfl, rfl, ?_, rfl, ?_, rfl⟩
  · show { sys with st := mergeTag fid tag val sys.st } = sys
    rw [mergeTag_stale h]
  · show { sys with st := mergeTotal fid v sys.st } = sys
    rw [mergeTotal_stale h]

theorem staleFailureStillReported_witness :
    (facetContinuation 1 "os" (Except.error "HTTP 500") sysW).1.faults =
      sysW.faults ++ ["HTTP 500"] ∧
    (totalContinuation 1 (Except.error "HTTP 500") sysW).1.faults =
      sysW.faults ++ ["HTTP 500"] ∧
    (facetContinuation 1 "os" (Except.ok tagW) sysW).1 = sysW ∧
    (facetContinuation 1 "os" (Except.ok tagW) sysW).1.faults = sysW.faults ∧
    (totalContinuation 1 (Except.ok 7) sysW).1 = sysW ∧
    (totalContinuation 1 (Except.ok 7) sysW).1.faults = sysW.faults :=
  staleFailureStillReported 1 "os" "HTTP 500" tagW 7 sysW (by simp [sysW])

theorem setIsEqual_iff (a b : List String) :
    setIsEqual a b = true ↔ a.toFinset = b.toFinset := by
  simp only [setIsEqual, Bool.and_eq_true, beq_iff_eq, List.all_eq_true, List.contains,
    List.elem_eq_mem, decide_eq_true_eq]
  constructor
  · rintro ⟨hcard, hsub⟩
    apply Finset.eq_of_subset_of_card_le
    · intro x hx
      rw [List.mem_toFinset] at hx ⊢
      exact hsub x hx
    · exact hcard.ge
  · intro h
    refine ⟨by rw [h], fun x hx => ?_⟩
    have hx2 : x ∈ a.toFinset := List.mem_toFinset.2 hx
    rw [h] at hx2
    exact List.mem_toFinset.1 hx2

/-- Claim C3: when the facet lists are equal as sets and the `pickTagParams`
projections are deeply equal, the refetch decision of `componentDidUpdate` is
false and no new round is started — the state is unchanged and nothing is
dispatched. -/
theorem noRefetchWhenUnchanged (props prevProps : Props) (sys : Sys)
    (htags : props.tags.toFinset = prevProps.tags.toFinset)
    (hparams : props.tagParams = prevProps.tagParams) :
    refetchDecision props prevProps = false ∧
    componentDidUpdate props prevProps sys = (sys, []) := by
  have hdec : refetchDecision props prevProps = false := by
    simp [refetchDecision, shouldRefetchData, hparams, (setIsEqual_iff _ _).2 htags]
  exact ⟨hdec, by simp [componentDidUpdate, hdec]⟩

theorem noRefetchWhenUnchanged_witness :
    refetchDecision { tags := ["os", "browser", "browser"], tagParams := paramsW }
        { tags := ["browser", "os"], tagParams := paramsW } = false ∧
    componentDidUpdate { tags := ["os", "browser", "browser"], tagParams := paramsW }
        { tags := ["browser", "os"], tagParams := paramsW } sysW = (sysW, []) :=
  noRefetchWhenUnchanged _ _ sysW (by decide) rfl

/-- Claim C4: whenever the facet lists differ as sets, the refetch decision is
true and `componentDidUpdate` starts a new round via `fetchData`, regardless of
the parameter projections. -/
theorem refetchWhenFacetsChange (props prevProps : Props) (sys : Sys)
    (htags : props.tags.toFinset ≠ prevProps.tags.toFinset) :
    refetchDecision props prevProps = true ∧
    componentDidUpdate props prevProps sys =
      ((fetchData props.tags props.tagParams sys).sys,
        (fetchData props.tags props.tagParams sys).steps) := by
  have hset : setIsEqual props.tags prevProps.tags = false := by
    cases h : setIsEqual props.tags prevProps.tags
    · rfl
    · exact absurd ((setIsEqual_iff _ _).1 h) htags
  have hdec : refetchDecision props prevProps = true := by
    simp [refetchDecision, hset]
  exact ⟨hdec, by simp [componentDidUpdate, hdec]⟩

theorem refetchWhenFacetsChange_witness :
    refetchDecision { tags := ["browser", "os"], tagParams := paramsW }
        { tags := ["browser"], tagParams := paramsW } = true ∧
    componentDidUpdate { tags := ["browser", "os"], tagParams := paramsW }
        { tags := ["browser"], tagParams := paramsW } sysW =
      ((fetchData ["browser", "os"] paramsW sysW).sys,
        (fetchData ["browser", "os"] paramsW sysW).steps) :=
  refetchWhenFacetsChange _ _ sysW (by decide)

/-- Claim C5: for every facet and state, `renderTag` reports loading iff the
facet's entry is absent from the map or the total is absent; in particular an
absent total forces every facet to report loading. -/
theorem facetLoadingIff (urlFn : String → String → String) (tag : String) (s : State) :
    ((renderTag urlFn tag s).1.isLoading = true ↔
      (s.tags tag = none ∨ s.totalValues = none)) ∧
    (s.totalValues = none → (renderTag urlFn tag s).1.isLoading = true) := by
  have hmain : (renderTag urlFn tag s).1.isLoading = true ↔
      (s.tags tag = none ∨ s.totalValues = none) := by
    rcases htag : s.tags tag with _ | tg <;> rcases htot : s.totalValues with _ | tot <;>
      simp [renderTag, htag, htot]
  exact ⟨hmain, fun h => hmain.2 (Or.inr h)⟩

def urlW : String → String → String :=
  fun tag value => "/results/?query=" ++ tag ++ ":" ++ value

/-- A state in which the facet "browser" has resolved but the total has not. -/
def stNoTotal : State :=
  { tags := fun t => if t = "browser" then some tagW else none
    totalValues := none, tagsFetchID := some 0 }

theorem facetLoadingIff_witness :
    (renderTag urlW "browser" stNoTotal).1.isLoading = true :=
  (facetLoadingIff urlW "browser" stNoTotal).2 rfl

/-- A state in which the facet "browser" and the total have both resolved, so a
render of "browser" takes the loaded branch. -/
def stLoaded : State :=
  { tags := fun t => if t = "browser" then some tagW else none
    totalValues := some 15, tagsFetchID := some 0 }

/-- Claim C9 is false on the code: rendering the loaded facet "browser" does not
leave the stored state unchanged — the `forEach` writes `segment.url` in place on
the stored top values, so the post-state differs from the pre-state. -/
theorem renderLeavesStateUnchanged_counterexample :
    (renderTag urlW "browser" stLoaded).2 ≠ stLoaded := by
  intro h
  have h2 : (renderTag urlW "browser" stLoaded).2.tags "browser" =
      stLoaded.tags "browser" := by rw [h]
  simp [renderTag, stLoaded, urlW, tagW] at h2

/-- Claim C9 amended: rendering a facet never touches the total, the round token,
or any other facet's entry, and rendering a facet that is still loading changes
nothing at all; but rendering a loaded facet overwrites the `url` field of each
stored top value of that facet (an in-place mutation of the stored FacetResult),
leaving its other fields intact. -/
theorem renderTagEffect (urlFn : String → String → String) (tag : String) (s : State) :
    (renderTag urlFn tag s).2.totalValues = s.totalValues ∧
    (renderTag urlFn tag s).2.tagsFetchID = s.tagsFetchID ∧
    (∀ t, t ≠ tag → (renderTag urlFn tag s).2.tags t = s.tags t) ∧
    ((s.tags tag = none ∨ s.totalValues = none) → (renderTag urlFn tag s).2 = s) ∧
    (∀ tg tot, s.tags tag = some tg → s.totalValues = some tot →
      (renderTag urlFn tag s).2.tags tag =
        some { tg with topValues :=
          tg.topValues.map (fun seg => { seg with url := some (urlFn tag seg.value) }) }) := by
  rcases htag : s.tags tag with _ | tg <;> rcases htot : s.totalValues with _ | tot <;>
    refine ⟨?_, ?_, ?_, ?_, ?_⟩ <;> (simp [renderTag, htag, htot]; try (intro t ht; simp [ht]))

theorem renderTagEffect_witness :
    (renderTag urlW "browser" stLoaded).2.tags "os" = stLoaded.tags "os" ∧
    (renderTag urlW "browser" stLoaded).2.tags "browser" =
      some { tagW with topValues :=
        tagW.topValues.map (fun seg => { seg with url := some (urlW "browser" seg.value) }) } :=
  ⟨(renderTagEffect urlW "browser" stLoaded).2.2.1 "os" (by decide),
    (renderTagEffect urlW "browser" stLoaded).2.2.2.2 tagW 15 (by simp [stLoaded]) rfl⟩

theorem mergeTag_token (fid : Nat) (tag : String) (val : Tag) (s : State) :
    (mergeTag fid tag val s).tagsFetchID = s.tagsFetchID := by
  unfold mergeTag
  split <;> rfl

theorem mergeTotal_token (fid : Nat) (v : Int) (s : State) :
    (mergeTotal fid v s).tagsFetchID = s.tagsFetchID := by
  unfold mergeTotal
  split <;> rfl

/-- Two resolutions of the same round that write different slots commute. -/
theorem applyResult_comm (fid : Nat) (x y : FetchResult) (hkey : x.key ≠ y.key) (z : State) :
    applyResult fid (applyResult fid z x) y = applyResult fid (applyResult fid z y) x := by
  cases x with
  | facet ta va =>
    cases y with
    | facet tb vb =>
      have ht : ta ≠ tb := by
        intro h
        exact hkey (by rw [FetchResult.key, FetchResult.key, h])
      by_cases hz : z.tagsFetchID = some fid
      · refine State.ext ?_ ?_ ?_
        · funext u
          simp only [applyResult, mergeTag, hz, ne_eq, not_true_eq_false, if_false,
            ite_not, if_pos]
          by_cases h1 : u = ta <;> by_cases h2 : u = tb <;>
            simp [mergeTag, hz, h1, h2, ht, Ne.symm ht]
        · simp [applyResult, mergeTag, hz]
        · simp [applyResult, mergeTag, hz]
      · have hz' : z.tagsFetchID ≠ some fid := hz
        simp only [applyResult, mergeTag_stale hz']
    | total vb =>
      by_cases hz : z.tagsFetchID = some fid
      · simp [applyResult, mergeTag, mergeTotal, hz]
      · have hz' : z.tagsFetchID ≠ some fid := hz
        simp only [applyResult, mergeTag_stale hz', mergeTotal_stale hz']
  | total va =>
    cases y with
    | facet tb vb =>
      by_cases hz : z.tagsFetchID = some fid
      · simp [applyResult, mergeTag, mergeTotal, hz]
      · have hz' : z.tagsFetchID ≠ some fid := hz
        simp only [applyResult, mergeTag_stale hz', mergeTotal_stale hz']
    | total vb =>
      exact absurd rfl hkey

/-- Claim C6: within one round, folding any permutation of the round's results
(each facet at most once, the total at most once) into the state yields the same
final state — the merges commute. -/
theorem mergeOrderIrrelevant (fid : Nat) (s : State) (l₁ l₂ : List FetchResult)
    (hperm : l₁.Perm l₂) (hnd : (l₁.map FetchResult.key).Nodup) :
    l₁.foldl (applyResult fid) s = l₂.foldl (applyResult fid) s := by
  apply hperm.foldl_eq' ?_ s
  intro x hx y hy z
  by_cases hxy : x = y
  · rw [hxy]
  · exact applyResult_comm fid x y
      (fun h => hxy (List.inj_on_of_nodup_map hnd hx hy h)) z

def tagW2 : Tag :=
  { topValues := [{ value := "linux", count := 4, url := none }] }

def resultsW : List FetchResult :=
  [FetchResult.facet "browser" tagW, FetchResult.facet "os" tagW2, FetchResult.total 15]

def resultsW2 : List FetchResult :=
  [FetchResult.total 15, FetchResult.facet "os" tagW2, FetchResult.facet "browser" tagW]

theorem mergeOrderIrrelevant_witness :
    resultsW.foldl (applyResult 0) sysW.st = resultsW2.foldl (applyResult 0) sysW.st :=
  mergeOrderIrrelevant 0 sysW.st resultsW resultsW2 (by decide) (by decide)

theorem renderTag_token (urlFn : String → String → String) (tag : String) (s : State) :
    (renderTag urlFn tag s).2.tagsFetchID = s.tagsFetchID := by
  rcases h1 : s.tags tag with _ | tg <;> rcases h2 : s.totalValues with _ | tot <;>
    simp [renderTag, h1, h2]

theorem facetResolve_token (sys : Sys) (fid : Nat) (tag : String)
    (outcome : Except String Tag) :
    (applyOp sys (Op.facetResolve fid tag outcome)).st.tagsFetchID =
      sys.st.tagsFetchID := by
  cases outcome with
  | ok val => exact mergeTag_token fid tag val sys.st
  | error e => rfl

theorem totalResolve_token (sys : Sys) (fid : Nat) (outcome : Except String Int) :
    (applyOp sys (Op.totalResolve fid outcome)).st.tagsFetchID = sys.st.tagsFetchID := by
  cases outcome with
  | ok v => exact mergeTotal_token fid v sys.st
  | error e => rfl

theorem mintedTokens_lower (sys : Sys) (ops : List Op) :
    ∀ x ∈ mintedTokens sys ops, sys.nextID ≤ x := by
  induction ops generalizing sys with
  | nil =>
    intro x hx
    simp [mintedTokens] at hx
  | cons op ops ih =>
    intro x hx
    cases op with
    | round facets payload =>
      rcases List.mem_cons.1 hx with rfl | hx2
      · exact Nat.le_refl _
      · have h2 := ih (applyOp sys (Op.round facets payload)) x hx2
        have h3 : (applyOp sys (Op.round facets payload)).nextID = sys.nextID + 1 := rfl
        omega
    | facetResolve fid tag outcome =>
      have h2 := ih (applyOp sys (Op.facetResolve fid tag outcome)) x hx
      have h3 : (applyOp sys (Op.facetResolve fid tag outcome)).nextID = sys.nextID := by
        cases outcome <;> rfl
      omega
    | totalResolve fid outcome =>
      have h2 := ih (applyOp sys (Op.totalResolve fid outcome)) x hx
      have h3 : (applyOp sys (Op.totalResolve fid outcome)).nextID = sys.nextID := by
        cases outcome <;> rfl
      omega
    | render urlFn tag =>
      exact ih (applyOp sys (Op.render urlFn tag)) x hx

theorem mintedTokens_nodup (sys : Sys) (ops : List Op) : (mintedTokens sys ops).Nodup := by
  induction ops generalizing sys with
  | nil => exact List.nodup_nil
  | cons op ops ih =>
    cases op with
    | round facets payload =>
      refine List.nodup_cons.2 ⟨?_, ih _⟩
      intro hmem
      have h2 := mintedTokens_lower (applyOp sys (Op.round facets payload)) ops _ hmem
      have h3 : (applyOp sys (Op.round facets payload)).nextID = sys.nextID + 1 := rfl
      omega
    | facetResolve fid tag outcome => exact ih _
    | totalResolve fid outcome => exact ih _
    | render urlFn tag => exact ih _

theorem current_token_lastMinted (sys : Sys) (ops : List Op) :
    (runOps sys ops).st.tagsFetchID =
      lastMinted (mintedTokens sys ops) sys.st.tagsFetchID := by
  induction ops generalizing sys with
  | nil => rfl
  | cons op ops ih =>
    cases op with
    | round facets payload =>
      exact ih (applyOp sys (Op.round facets payload))
    | facetResolve fid tag outcome =>
      have h := ih (applyOp sys (Op.facetResolve fid tag outcome))
      rw [facetResolve_token] at h
      exact h
    | totalResolve fid outcome =>
      have h := ih (applyOp sys (Op.totalResolve fid outcome))
      rw [totalResolve_token] at h
      exact h
    | render urlFn tag =>
      have h := ih (applyOp sys (Op.render urlFn tag))
      have h2 : (applyOp sys (Op.render urlFn tag)).st.tagsFetchID =
          sys.st.tagsFetchID := renderTag_token urlFn tag sys.st
      rw [h2] at h
      exact h

/-- Claim C8: along any lifetime of the component, every round start mints a
token distinct from every previously minted one (the minted token list has no
duplicates), and the token stored in the state — the unique current round — is
always the most recently minted one (or the initial token while no round has
started). -/
theorem roundTokensUnique (sys : Sys) (ops : List Op) :
    (mintedTokens sys ops).Nodup ∧
    (runOps sys ops).st.tagsFetchID =
      lastMinted (mintedTokens sys ops) sys.st.tagsFetchID :=
  ⟨mintedTokens_nodup sys ops, current_token_lastMinted sys ops⟩
